import Mathlib

/-!
Shallow embedding of the profiling engine of `src/src/lib/profiler.c`
(cf4ocl, the `cl4_prof_*` family).

Modelling conventions, used throughout:

* `cl_ulong` (64-bit unsigned) arithmetic is modelled on `Nat` with explicit
  wrap-around: `u64add` / `u64sub` below.  Timestamps are `Nat`s.
* A GLib hash table is modelled as an association list with
  insert-overwrites-existing-key semantics (`tinsert` erases the old binding
  first); `g_hash_table_iter` iteration is modelled as iteration over the
  list.  Hash iteration order is unspecified in GLib; the list order is one
  deterministic choice of it.
* `g_list_sort_with_data` is a stable merge sort placing `a` before `b` when
  the comparator returns a value `≤ 0`; `List.insertionSort` with the
  relation `fun a b => comp a b ≤ 0` is stable with exactly the same tie
  behaviour, and a stable sort for a total preorder is unique, so it computes
  the same list.
* A failed `cl4_event_get_profiling_info` query is an event source field
  equal to `none`.
* Dereferencing a `NULL` returned by `g_hash_table_lookup` (a crash in the C
  code) is modelled by the enclosing operation returning `none`.
  `g_hash_table_size (NULL)` returns `0` in GLib (after a critical warning)
  and is modelled by `Option.getD` with the empty table.
* A C `double` is modelled as `Option ℚ`: `none` stands for the non-finite
  values (NaN from `0.0/0.0`, infinities from `x/0.0`), and finite results
  are idealised as exact rationals.
* The `GTimer` collaborator is external to the repository; only its
  presence/absence (`prof->timer` being non-`NULL`) is modelled.
* The export stream is modelled as an always-successful `String` sink
  (`fprintf` failures are not needed by any claim below).
-/

namespace Cf4oclProf

/-- 2^64, the modulus of `cl_ulong` arithmetic. -/
def U64 : Nat := 2 ^ 64

/-- `cl_ulong` addition (wraps modulo 2^64). -/
def u64add (a b : Nat) : Nat := (a + b) % U64

/-- `cl_ulong` subtraction `a - b` (wraps modulo 2^64). -/
def u64sub (a b : Nat) : Nat := (a % U64 + (U64 - b % U64)) % U64

/-- `CL_ULONG_MAX`, the initial `start_time` of a fresh profile. -/
def CL_ULONG_MAX : Nat := U64 - 1

/-! ### Association-list model of GLib hash tables -/

/-- `g_hash_table_lookup`: value of the first binding of key `k`. -/
def tlookup {α β : Type} [DecidableEq α] (k : α) : List (α × β) → Option β
  | [] => none
  | e :: l => if e.1 = k then some e.2 else tlookup k l

/-- `g_hash_table_contains`. -/
def tcontains {α β : Type} [DecidableEq α] (k : α) (l : List (α × β)) : Bool :=
  (tlookup k l).isSome

/-- `g_hash_table_remove`: drop the binding of key `k`. -/
def terase {α β : Type} [DecidableEq α] (k : α) : List (α × β) → List (α × β)
  | [] => []
  | e :: l => if e.1 = k then terase k l else e :: terase k l

/-- `g_hash_table_insert` / `g_hash_table_replace`: bind `k` to `v`,
overwriting an existing binding. -/
def tinsert {α β : Type} [DecidableEq α] (k : α) (v : β) (l : List (α × β)) :
    List (α × β) :=
  (k, v) :: terase k l

/-- Replace the value stored under `k` in place (the C code mutates the value
a `g_hash_table_lookup` returned a pointer to; the entry keeps its position
and only its first binding is affected). -/
def tmodify {α β : Type} [DecidableEq α] (k : α) (v : β) : List (α × β) → List (α × β)
  | [] => []
  | e :: l => if e.1 = k then (e.1, v) :: l else e :: tmodify k v l

/-! ### Data model (`profiler.c` lines 36-119) -/

/-- `CL4ProfEventInstType` (lines 70-77). -/
inductive CL4ProfEventInstType : Type
  | START
  | END
deriving DecidableEq, Repr

/-- `CL4ProfEventInst` (lines 82-96). -/
structure CL4ProfEventInst : Type where
  event_name : String
  queue_name : String
  id : Nat
  instant : Nat
  type : CL4ProfEventInstType
deriving DecidableEq, Repr

/-- `CL4ProfEventInstSort` (lines 101-108). -/
inductive CL4ProfEventInstSort : Type
  | INSTANT
  | ID
deriving DecidableEq, Repr

/-- `CL4ProfEvent` (declared in `profiler.h`; fields used at lines 263-277). -/
structure CL4ProfEvent : Type where
  event_name : String
  queue_name : String
  t_queued : Nat
  t_submit : Nat
  t_start : Nat
  t_end : Nat
deriving DecidableEq, Repr

/-- `CL4ProfEventAgg` (declared in `profiler.h`; fields used at lines
201-205, 544, 555).  `relative_time` is a C `double`, modelled as
`Option ℚ` (see the file header). -/
structure CL4ProfEventAgg : Type where
  event_name : String
  absolute_time : Nat
  relative_time : Option ℚ
deriving DecidableEq, Repr

/-- `CL4ProfEventAggSort` (declared in `profiler.h`, used at lines 235-241). -/
inductive CL4ProfEventAggSort : Type
  | NAME
  | TIME
deriving DecidableEq, Repr

/-- `CL4ProfEventSort` (declared in `profiler.h`, used at lines 306-332). -/
inductive CL4ProfEventSort : Type
  | NAME_EVENT
  | NAME_QUEUE
  | T_QUEUED
  | T_SUBMIT
  | T_START
  | T_END
deriving DecidableEq, Repr

/-- The event collaborator consumed during ingest (§6 of the spec):
`cl4_event_get_final_name` and the four
`cl4_event_get_profiling_info` queries, a query failure being `none`. -/
structure CL4EventSrc : Type where
  final_name : String
  t_queued : Option Nat
  t_submit : Option Nat
  t_start : Option Nat
  t_end : Option Nat
deriving DecidableEq, Repr

/-- `struct cl4_prof` (lines 36-65).  A command queue wrapper is modelled by
the list of events its event iterator yields (the only part of the
collaborator the profiler consumes). -/
structure CL4Prof : Type where
  event_names : Option (List (String × Nat))
  event_name_ids : Option (List (Nat × String))
  cqueues : List (String × List CL4EventSrc)
  event_instants : List CL4ProfEventInst
  num_events : Nat
  events : List CL4ProfEvent
  aggregate : Option (List (String × CL4ProfEventAgg))
  overmat : Option (List Nat)
  total_events_time : Nat
  total_events_eff_time : Nat
  start_time : Nat
  timer : Option Unit
deriving DecidableEq, Repr

/-- `cl4_prof_new` (lines 737-748): a zeroed profile with
`start_time = CL_ULONG_MAX`. -/
def cl4_prof_new : CL4Prof where
  event_names := none
  event_name_ids := none
  cqueues := []
  event_instants := []
  num_events := 0
  events := []
  aggregate := none
  overmat := none
  total_events_time := 0
  total_events_eff_time := 0
  start_time := CL_ULONG_MAX
  timer := none

/-! ### Comparators (lines 30, 173-193, 226-245, 298-336) -/

/-- `CL4_PROF_CMP` (line 30): `(((x) < (y)) ? 1 : (((x) > (y)) ? -1 : 0))`.
Note the reversed sign: a smaller `x` makes the comparator report the first
argument as the *greater* element. -/
def CL4_PROF_CMP (x y : Nat) : Int :=
  if x < y then 1 else if x > y then -1 else 0

/-- `cl4_prof_eventinst_comp` (lines 173-193). -/
def cl4_prof_eventinst_comp (sort_type : CL4ProfEventInstSort)
    (a b : CL4ProfEventInst) : Int :=
  match sort_type with
  | .INSTANT => CL4_PROF_CMP a.instant b.instant
  | .ID =>
      if a.id > b.id then 1
      else if a.id < b.id then -1
      else if a.type = .END then 1
      else -1

/-- `g_strcmp0` on two strings, as an `Int` sign. -/
def strcmpInt (a b : String) : Int :=
  match compare a b with
  | .lt => -1
  | .eq => 0
  | .gt => 1

/-- `cl4_prof_eventagg_comp` (lines 226-245). -/
def cl4_prof_eventagg_comp (sort_type : CL4ProfEventAggSort)
    (a b : CL4ProfEventAgg) : Int :=
  match sort_type with
  | .NAME => strcmpInt a.event_name b.event_name
  | .TIME => CL4_PROF_CMP a.absolute_time b.absolute_time

/-- `cl4_prof_event_comp` (lines 298-336). -/
def cl4_prof_event_comp (sort_type : CL4ProfEventSort)
    (a b : CL4ProfEvent) : Int :=
  match sort_type with
  | .NAME_EVENT => strcmpInt a.event_name b.event_name
  | .NAME_QUEUE => strcmpInt a.queue_name b.queue_name
  | .T_QUEUED => CL4_PROF_CMP a.t_queued b.t_queued
  | .T_SUBMIT => CL4_PROF_CMP a.t_submit b.t_submit
  | .T_START => CL4_PROF_CMP a.t_start b.t_start
  | .T_END => CL4_PROF_CMP a.t_end b.t_end

/-- `g_list_sort_with_data` places `a` before `b` when the comparator
returns `≤ 0`; sorting by instant hence uses this relation. -/
def leInstant (a b : CL4ProfEventInst) : Prop :=
  cl4_prof_eventinst_comp .INSTANT a b ≤ 0

instance : DecidableRel leInstant := fun a b => by
  unfold leInstant; infer_instance

/-- Sorting relation for the instant-list sort by event id. -/
def leId (a b : CL4ProfEventInst) : Prop :=
  cl4_prof_eventinst_comp .ID a b ≤ 0

instance : DecidableRel leId := fun a b => by
  unfold leId; infer_instance

/-- Sorting relation for the event-list sort by `t_start`. -/
def leTStart (a b : CL4ProfEvent) : Prop :=
  cl4_prof_event_comp .T_START a b ≤ 0

instance : DecidableRel leTStart := fun a b => by
  unfold leTStart; infer_instance

/-- Sorting relation for the aggregate report sort. -/
def leAgg (s : CL4ProfEventAggSort) (a b : CL4ProfEventAgg) : Prop :=
  cl4_prof_eventagg_comp s a b ≤ 0

instance : DecidableRel (leAgg s) := fun a b => by
  unfold leAgg; infer_instance

/-- `leInstant` unfolded: because `CL4_PROF_CMP` is sign-reversed, `a` sorts
no later than `b` exactly when `b.instant ≤ a.instant` — the instant sort is
descending. -/
theorem leInstant_iff (a b : CL4ProfEventInst) :
    leInstant a b ↔ b.instant ≤ a.instant := by
  unfold leInstant cl4_prof_eventinst_comp CL4_PROF_CMP
  rcases Nat.lt_trichotomy a.instant b.instant with h | h | h
  · simp [h, Nat.lt_asymm h]
  · simp [h]
  · simp [Nat.lt_asymm h, h, Nat.le_of_lt h]

instance : IsTotal CL4ProfEventInst leInstant :=
  ⟨fun a b => by
    rw [leInstant_iff, leInstant_iff]
    exact (Nat.le_total b.instant a.instant)⟩

instance : IsTrans CL4ProfEventInst leInstant :=
  ⟨fun a b c hab hbc => by
    rw [leInstant_iff] at *
    exact le_trans hbc hab⟩

/-! ### Ingest (`cl4_prof_add_event`, lines 345-444, and
`cl4_prof_process_queues`, lines 454-490) -/

/-- `cl4_prof_add_event` (lines 345-444).  Returns the updated profile and an
error flag (`true` when a profiling-info query failed and `*err` was set).
The C code increments `num_events` and interns the event name *before* the
first query; the start instant (and the `start_time` minimum) is committed
before the end-instant query; both instants are committed before the queued
and submit queries; the event record is appended only after all four queries
succeeded. -/
def cl4_prof_add_event (prof : CL4Prof) (cq_name : String) (evt : CL4EventSrc) :
    CL4Prof × Bool :=
  let event_name := evt.final_name
  let event_id := prof.num_events + 1
  let names := prof.event_names.getD []
  let names' := if tcontains event_name names then names
                else tinsert event_name names.length names
  let p1 : CL4Prof :=
    { prof with num_events := event_id, event_names := some names' }
  match evt.t_start with
  | none => (p1, true)
  | some ts =>
    let p2 : CL4Prof :=
      { p1 with
        start_time := if ts < p1.start_time then ts else p1.start_time,
        event_instants :=
          ⟨event_name, cq_name, event_id, ts, .START⟩ :: p1.event_instants }
    match evt.t_end with
    | none => (p2, true)
    | some te =>
      let p3 : CL4Prof :=
        { p2 with
          event_instants :=
            ⟨event_name, cq_name, event_id, te, .END⟩ :: p2.event_instants }
      match evt.t_queued with
      | none => (p3, true)
      | some tq =>
        match evt.t_submit with
        | none => (p3, true)
        | some tsub =>
          ({ p3 with
             events := ⟨event_name, cq_name, tq, tsub, ts, te⟩ :: p3.events },
           false)

/-- Inner loop of `cl4_prof_process_queues`: add every event of one queue,
aborting on the first error. -/
def cl4_prof_process_one_queue (cq_name : String) :
    CL4Prof → List CL4EventSrc → CL4Prof × Bool
  | prof, [] => (prof, false)
  | prof, evt :: rest =>
    match cl4_prof_add_event prof cq_name evt with
    | (p', true) => (p', true)
    | (p', false) => cl4_prof_process_one_queue cq_name p' rest

/-- Queue loop of `cl4_prof_process_queues` (lines 464-480). -/
def cl4_prof_process_queue_list :
    CL4Prof → List (String × List CL4EventSrc) → CL4Prof × Bool
  | prof, [] => (prof, false)
  | prof, (cq_name, evts) :: rest =>
    match cl4_prof_process_one_queue cq_name prof evts with
    | (p', true) => (p', true)
    | (p', false) => cl4_prof_process_queue_list p' rest

/-- `cl4_prof_process_queues` (lines 454-490): ingest all queues, then (only
on success — the C code returns early on error) build the reverse
`id → name` table from `event_names`. -/
def cl4_prof_process_queues (prof : CL4Prof) : CL4Prof × Bool :=
  match cl4_prof_process_queue_list prof prof.cqueues with
  | (p', true) => (p', true)
  | (p', false) =>
    ({ p' with
       event_name_ids :=
         some ((p'.event_names.getD []).foldl
           (fun t e => tinsert e.2 e.1 t) []) },
     false)

/-! ### Aggregate statistics (`cl4_prof_calc_agg`, lines 492-561) -/

/-- IEEE `double` division of two exact naturals, in the `Option ℚ` model of
doubles: `none` is the non-finite outcome (`0.0/0.0` is NaN, `x/0.0` is an
infinity), finite quotients are idealised as exact rationals. -/
def dblDiv (a b : Nat) : Option ℚ :=
  if b = 0 then none else some (mkRat a b)

/-- For a non-zero divisor `dblDiv` is the exact quotient `a / b` in `ℚ`. -/
theorem dblDiv_eq_div (a b : Nat) (h : b ≠ 0) :
    dblDiv a b = some ((a : ℚ) / (b : ℚ)) := by
  unfold dblDiv
  rw [if_neg h, Rat.mkRat_eq_div]
  norm_num

/-- The paired walk of lines 524-549: consume the (`ID`-sorted) instant list
two at a time, adding `end - start` to the named aggregate and to
`total_events_time`.  `none` models the crashes of the C code: reading past
the list end when an instant is unpaired, and dereferencing the `NULL`
returned by `g_hash_table_lookup` when the event name has no aggregate. -/
def cl4_prof_agg_walk :
    List (String × CL4ProfEventAgg) → Nat → List CL4ProfEventInst →
    Option (List (String × CL4ProfEventAgg) × Nat)
  | agg, total, [] => some (agg, total)
  | _, _, [_] => none
  | agg, total, s :: e :: rest =>
    match tlookup e.event_name agg with
    | none => none
    | some a =>
      cl4_prof_agg_walk
        (tmodify e.event_name
          { a with absolute_time :=
              u64add a.absolute_time (u64sub e.instant s.instant) } agg)
        (u64add total (u64sub e.instant s.instant)) rest

/-- The relative-time pass of lines 551-559: every aggregate entry gets
`relative_time = absolute_time / total_events_time` as a `double` division,
with no guard against a zero divisor. -/
def cl4_prof_agg_rel_pass (agg : List (String × CL4ProfEventAgg)) (total : Nat) :
    List (String × CL4ProfEventAgg) :=
  agg.map fun p =>
    (p.1, { p.2 with relative_time := dblDiv p.2.absolute_time total })

/-- `cl4_prof_calc_agg` (lines 492-561): initialise a zeroed aggregate entry
per event name, sort the instants by `(id, START before END)`, walk the
pairs, then compute the relative times. -/
def cl4_prof_calc_agg (prof : CL4Prof) : Option CL4Prof :=
  let names := prof.event_names.getD []
  let agg0 := names.foldl
    (fun a e => tinsert e.1 ⟨e.1, 0, none⟩ a) (prof.aggregate.getD [])
  let sorted := List.insertionSort leId prof.event_instants
  (cl4_prof_agg_walk agg0 prof.total_events_time sorted).map fun r =>
    { prof with
      aggregate := some (cl4_prof_agg_rel_pass r.1 r.2),
      event_instants := sorted,
      total_events_time := r.2 }

/-! ### Overlap matrix (`cl4_prof_calc_overmat`, lines 568-730) -/

/-- The sweep state of `cl4_prof_calc_overmat`: the `occurring_events` table
(event id ↦ event-name id), the `overlaps` helper table (the nested
`smaller id → larger id → instant` tables flattened to a pair key), the flat
`num_event_names × num_event_names` overlap matrix and the running
`total_overlap`. -/
structure OverSt : Type where
  occ : List (Nat × Nat)
  ovl : List ((Nat × Nat) × Nat)
  mat : List Nat
  tov : Nat
deriving DecidableEq, Repr

/-- `overlap_matrix[idx] += eff` (line 709), with `cl_ulong` wrap-around.
(`List.set` ignores an out-of-range index; in the pipeline the index is
always in range.) -/
def matAdd (m : List Nat) (idx : Nat) (eff : Nat) : List Nat :=
  m.set idx (u64add (m.getD idx 0) eff)

/-- The END-instant inner loop (lines 680-711): for every still-occurring
event, look up the recorded pair-start instant, and add
`eff = current instant - recorded instant` to the matrix cell of the two
name ids and to `total_overlap`.  A missing pair entry makes the C code
dereference the `NULL` inner-table lookup: modelled as `none`. -/
def cl4_prof_end_accum (xid xinst xueid n : Nat)
    (ovl : List ((Nat × Nat) × Nat)) :
    List (Nat × Nat) → List Nat → Nat → Option (List Nat × Nat)
  | [], mat, tov => some (mat, tov)
  | (eid, oueid) :: ps, mat, tov =>
    match tlookup (if xid ≤ eid then xid else eid,
                   if xid > eid then xid else eid) ovl with
    | none => none
    | some v =>
      let eff := u64sub xinst v
      cl4_prof_end_accum xid xinst xueid n ovl ps
        (matAdd mat ((if xueid ≤ oueid then xueid else oueid) * n +
          (if xueid > oueid then xueid else oueid)) eff)
        (u64add tov eff)

/-- The START-instant loop (lines 632-663): for every occurring event,
record the current instant under the `(smaller id, larger id)` pair key. -/
def cl4_prof_rec_pairs (xid xinst : Nat) (occ : List (Nat × Nat))
    (ovl : List ((Nat × Nat) × Nat)) : List ((Nat × Nat) × Nat) :=
  occ.foldl (fun acc p =>
    tinsert (if xid ≤ p.1 then xid else p.1, if xid > p.1 then xid else p.1)
      xinst acc) ovl

/-- One step of the sweep of lines 605-716, for one event instant. -/
def cl4_prof_sweep_step (names : List (String × Nat)) (n : Nat)
    (st : OverSt) (x : CL4ProfEventInst) : Option OverSt :=
  match x.type with
  | .START =>
    some { st with
           ovl := cl4_prof_rec_pairs x.id x.instant st.occ st.ovl,
           occ := tinsert x.id ((tlookup x.event_name names).getD 0) st.occ }
  | .END =>
    let occ2 := terase x.id st.occ
    match cl4_prof_end_accum x.id x.instant
        ((tlookup x.event_name names).getD 0) n st.ovl occ2 st.mat st.tov with
    | none => none
    | some r => some ⟨occ2, st.ovl, r.1, r.2⟩

/-- The full sweep over the (instant-sorted) list. -/
def cl4_prof_sweep (names : List (String × Nat)) (n : Nat) :
    OverSt → List CL4ProfEventInst → Option OverSt
  | st, [] => some st
  | st, x :: rest =>
    match cl4_prof_sweep_step names n st x with
    | none => none
    | some st' => cl4_prof_sweep names n st' rest

/-- The sweep as run by `cl4_prof_calc_overmat`: sort the instants with the
`INSTANT` comparator and start from an empty state over a zeroed
`n × n` matrix. -/
def cl4_prof_run_sweep (prof : CL4Prof) : Option OverSt :=
  let names := prof.event_names.getD []
  let n := names.length
  cl4_prof_sweep names n ⟨[], [], List.replicate (n * n) 0, 0⟩
    (List.insertionSort leInstant prof.event_instants)

/-- The `total_overlap` local variable of lines 571, 710 as observed at
line 722. -/
def cl4_prof_total_overlap (prof : CL4Prof) : Option Nat :=
  (cl4_prof_run_sweep prof).map (·.tov)

/-- `cl4_prof_calc_overmat` (lines 568-730): run the sweep, store the matrix
and `total_events_eff_time = total_events_time - total_overlap` (a `cl_ulong`
subtraction). -/
def cl4_prof_calc_overmat (prof : CL4Prof) : Option CL4Prof :=
  (cl4_prof_run_sweep prof).map fun st =>
    { prof with
      event_instants := List.insertionSort leInstant prof.event_instants,
      overmat := some st.mat,
      total_events_eff_time := u64sub prof.total_events_time st.tov }

/-! ### Public operations -/

/-- `cl4_prof_start` (lines 801-808): creates the timer. -/
def cl4_prof_start (prof : CL4Prof) : CL4Prof :=
  { prof with timer := some () }

/-- `cl4_prof_stop` (lines 816-823): calls `g_timer_stop (prof->timer)`
without checking the timer; a `NULL` timer is dereferenced (`none`). -/
def cl4_prof_stop (prof : CL4Prof) : Option CL4Prof :=
  match prof.timer with
  | none => none
  | some _ => some prof

/-- `cl4_prof_time_elapsed` (lines 833-840): calls
`g_timer_elapsed (prof->timer, NULL)` without checking the timer; a `NULL`
timer is dereferenced (`none`).  The elapsed seconds themselves come from the
external `GTimer` and are not modelled. -/
def cl4_prof_time_elapsed (prof : CL4Prof) : Option Unit :=
  match prof.timer with
  | none => none
  | some _ => some ()

/-- `cl4_prof_add_queue` (lines 849-877): precondition
`prof->aggregate == NULL` (`g_return_if_fail` returns with no effect
otherwise); then `g_hash_table_replace` the queue under its name. -/
def cl4_prof_add_queue (prof : CL4Prof) (cq_name : String)
    (cq : List CL4EventSrc) : CL4Prof :=
  match prof.aggregate with
  | some _ => prof
  | none => { prof with cqueues := tinsert cq_name cq prof.cqueues }

/-- `cl4_prof_calc` (lines 888-935): precondition `aggregate == NULL`
(returns `CL_FALSE` untouched otherwise); create the aggregate and
event-name tables, ingest, then aggregate and overlap stages.  `none` models
the crashes reachable inside the two calculation stages. -/
def cl4_prof_calc (prof : CL4Prof) : Option (CL4Prof × Bool) :=
  match prof.aggregate with
  | some _ => some (prof, false)
  | none =>
    let p1 : CL4Prof := { prof with aggregate := some [], event_names := some [] }
    match cl4_prof_process_queues p1 with
    | (p2, true) => some (p2, false)
    | (p2, false) =>
      match cl4_prof_calc_agg p2 with
      | none => none
      | some p3 => (cl4_prof_calc_overmat p3).map fun p4 => (p4, true)

/-- `cl4_prof_get_eventagg` (lines 944-953): precondition
`aggregate != NULL` (returns `NULL` otherwise), then a table lookup. -/
def cl4_prof_get_eventagg (prof : CL4Prof) (event_name : String) :
    Option CL4ProfEventAgg :=
  match prof.aggregate with
  | none => none
  | some agg => tlookup event_name agg

/-! ### Reporter (`cl4_prof_print_info`, lines 965-1062) -/

/-- The sections `cl4_prof_print_info` emits after its fixed header:
whether the timer line was printed, the optional total-events line, the
aggregate rows in printed order, the overlap rows `(i, j, overmat[i*n+j])`
with a positive value, and the optional effective-time lines
`(eff, total - eff)` printed only when some overlap row exists. -/
structure CL4PrintOut : Type where
  timer_line : Bool
  total_line : Option Nat
  agg_rows : List CL4ProfEventAgg
  overlap_rows : List (Nat × Nat × Nat)
  eff_line : Option (Nat × Nat)
deriving DecidableEq, Repr

/-- `cl4_prof_print_info` (lines 965-1062).  `g_hash_table_size (NULL)` is
`0`, so with no aggregate table the aggregate section is skipped, and with no
event-name table the overlap loops run zero iterations; the overlap matrix is
only read when `num_event_names > 0`, and reading it while `NULL` is the
crash (`none`).  The function reads the profile and never mutates it. -/
def cl4_prof_print_info (prof : CL4Prof) (s : CL4ProfEventAggSort) :
    Option CL4PrintOut :=
  let aggTbl := prof.aggregate.getD []
  let agg_rows :=
    if aggTbl.length > 0 then
      List.insertionSort (leAgg s) (aggTbl.map (·.2))
    else []
  let n := (prof.event_names.getD []).length
  let rows? : Option (List (Nat × Nat × Nat)) :=
    if n = 0 then some [] else
      prof.overmat.map fun m =>
        (List.range n).flatMap fun i =>
          (List.range n).filterMap fun j =>
            if m.getD (i * n + j) 0 > 0 then some (i, j, m.getD (i * n + j) 0)
            else none
  rows?.map fun rows =>
    { timer_line := prof.timer.isSome,
      total_line :=
        if prof.total_events_time > 0 then some prof.total_events_time else none,
      agg_rows := agg_rows,
      overlap_rows := rows,
      eff_line :=
        if rows.length > 0 then
          some (prof.total_events_eff_time,
                prof.total_events_time - prof.total_events_eff_time)
        else none }

/-! ### Exporter (`cl4_prof_export_info`, lines 1090-1164) -/

/-- `CL4ProfExportOptions` (declared in `profiler.h`, defaults at lines
111-119). -/
structure CL4ProfExportOptions : Type where
  separator : String
  newline : String
  queue_delim : String
  evname_delim : String
  zero_start : Bool
deriving DecidableEq, Repr

/-- The static default `export_options` (lines 111-119). -/
def default_export_options : CL4ProfExportOptions where
  separator := "\t"
  newline := "\n"
  queue_delim := ""
  evname_delim := ""
  zero_start := true

/-- One exported line, exactly the `fprintf` of lines 1122-1134: the event's
`t_start` and `t_end` are printed as-is (the `zero_start` option is never
consulted by `cl4_prof_export_info`). -/
def cl4_prof_export_line (o : CL4ProfExportOptions) (e : CL4ProfEvent) : String :=
  o.queue_delim ++ e.queue_name ++ o.queue_delim ++ o.separator ++
  Nat.repr e.t_start ++ o.separator ++ Nat.repr e.t_end ++ o.separator ++
  o.evname_delim ++ e.event_name ++ o.evname_delim ++ o.newline

/-- `cl4_prof_export_info` (lines 1090-1164): sort the event list with the
`T_START` comparator, then write one line per event to the stream (modelled
as the concatenated output string; write errors are not modelled). -/
def cl4_prof_export_info (prof : CL4Prof) (o : CL4ProfExportOptions) : String :=
  ((List.insertionSort leTStart prof.events).map (cl4_prof_export_line o)).foldl
    (· ++ ·) ""

/-! ### Helper lemmas about the table model and `cl_ulong` arithmetic -/

theorem u64sub_self (a : Nat) : u64sub a a = 0 := by
  unfold u64sub U64
  have h : a % 2 ^ 64 ≤ 2 ^ 64 := le_of_lt (Nat.mod_lt _ (by positivity))
  omega

theorem u64add_zero_zero : u64add 0 0 = 0 := by
  unfold u64add U64; simp

theorem u64sub_zero_of_lt {a : Nat} (h : a < U64) : u64sub a 0 = a := by
  unfold u64sub
  rw [Nat.mod_eq_of_lt h, Nat.zero_mod, Nat.sub_zero, Nat.add_mod_right,
    Nat.mod_eq_of_lt h]

theorem u64add_lt (a b : Nat) : u64add a b < U64 :=
  Nat.mod_lt _ (by unfold U64; positivity)

theorem U64_pos : 0 < U64 := by unfold U64; positivity

theorem terase_subset {α β : Type} [DecidableEq α] (k : α) {z : α × β} :
    ∀ {l : List (α × β)}, z ∈ terase k l → z ∈ l := by
  intro l
  induction l with
  | nil => simp [terase]
  | cons e l ih =>
    unfold terase
    by_cases h : e.1 = k
    · rw [if_pos h]
      intro hz
      exact List.mem_cons_of_mem _ (ih hz)
    · rw [if_neg h]
      intro hz
      rcases List.mem_cons.mp hz with hz | hz
      · exact hz ▸ List.mem_cons_self ..
      · exact List.mem_cons_of_mem _ (ih hz)

theorem mem_tinsert {α β : Type} [DecidableEq α] {k : α} {v : β} {z : α × β}
    {l : List (α × β)} (h : z ∈ tinsert k v l) : z = (k, v) ∨ z ∈ l := by
  unfold tinsert at h
  rcases List.mem_cons.mp h with h' | h'
  · exact Or.inl h'
  · exact Or.inr (terase_subset k h')

theorem tlookup_mem {α β : Type} [DecidableEq α] {k : α} {v : β} :
    ∀ {l : List (α × β)}, tlookup k l = some v → (k, v) ∈ l := by
  intro l
  induction l with
  | nil => simp [tlookup]
  | cons e l ih =>
    unfold tlookup
    by_cases h : e.1 = k <;> simp [h]
    · rintro rfl
      exact Or.inl (by rw [← h])
    · intro hl
      exact Or.inr (ih hl)

theorem mem_rec_pairs {xid xinst : Nat} {z : (Nat × Nat) × Nat} :
    ∀ {occ : List (Nat × Nat)} {ovl : List ((Nat × Nat) × Nat)},
      z ∈ cl4_prof_rec_pairs xid xinst occ ovl →
      z ∈ ovl ∨ ∃ p ∈ occ,
        z = ((if xid ≤ p.1 then xid else p.1, if xid > p.1 then xid else p.1),
             xinst) := by
  intro occ
  induction occ with
  | nil => intro ovl h; exact Or.inl h
  | cons p occ ih =>
    intro ovl h
    unfold cl4_prof_rec_pairs at h
    rw [List.foldl_cons] at h
    rcases ih h with h' | h'
    · rcases mem_tinsert h' with h'' | h''
      · exact Or.inr ⟨p, List.mem_cons_self .., h''⟩
      · exact Or.inl h''
    · rcases h' with ⟨q, hq, rfl⟩
      exact Or.inr ⟨q, List.mem_cons_of_mem _ hq, rfl⟩

/-! ### The sweep invariant

The instant comparator sorts *descending* (`leInstant_iff`).  On a
descending instant list whose START instants carry `stf id` and whose END
instants carry `enf id` with `stf id ≤ enf id` (the device timestamp
monotonicity of the spec data model), every pair-start instant a successful
sweep looks up equals the current instant, so every accumulated overlap is
`0`.  (On inputs where a looked-up pair entry is missing the sweep crashes,
i.e. returns `none`.) -/

/-- The instant `x` is the START instant of an event starting at `stf x.id`
or the END instant of an event ending at `enf x.id`. -/
def typedInst (stf enf : Nat → Nat) (x : CL4ProfEventInst) : Prop :=
  (x.type = .START → x.instant = stf x.id) ∧ (x.type = .END → x.instant = enf x.id)

instance : Decidable (typedInst stf enf x) := by
  unfold typedInst; infer_instance

/-- Occurring-table invariant: every occurring event was opened at an
instant no earlier (in sweep order, i.e. no smaller) than anything still to
be processed. -/
def OccInv (stf : Nat → Nat) (R : List CL4ProfEventInst)
    (occ : List (Nat × Nat)) : Prop :=
  ∀ p ∈ occ, ∀ y ∈ R, y.instant ≤ stf p.1

/-- Overlaps-table invariant: every recorded pair-start instant is the start
instant of one member `c` of the pair, recorded while the other member `d`
had already opened (`stf c ≤ stf d`), and is no smaller than any instant
still to be processed. -/
def OvlInv (stf : Nat → Nat) (R : List CL4ProfEventInst)
    (ovl : List ((Nat × Nat) × Nat)) : Prop :=
  ∀ e ∈ ovl, ∃ c d, (e.1 = (c, d) ∨ e.1 = (d, c)) ∧ e.2 = stf c ∧
    stf c ≤ stf d ∧ ∀ y ∈ R, y.instant ≤ stf c

theorem end_accum_tov (xid xinst xueid n : Nat)
    (ovl : List ((Nat × Nat) × Nat)) :
    ∀ (ps : List (Nat × Nat)) (mat : List Nat) (tov : Nat), tov = 0 →
      (∀ p ∈ ps, ∀ v,
        tlookup (if xid ≤ p.1 then xid else p.1,
                 if xid > p.1 then xid else p.1) ovl = some v → v = xinst) →
      ∀ r, cl4_prof_end_accum xid xinst xueid n ovl ps mat tov = some r →
        r.2 = 0 := by
  intro ps
  induction ps with
  | nil =>
    intro mat tov htov _ r hr
    unfold cl4_prof_end_accum at hr
    cases hr
    exact htov
  | cons p ps ih =>
    intro mat tov htov hps r hr
    obtain ⟨eid, oueid⟩ := p
    unfold cl4_prof_end_accum at hr
    cases hv : tlookup (if xid ≤ eid then xid else eid,
        if xid > eid then xid else eid) ovl with
    | none => rw [hv] at hr; exact absurd hr (by simp)
    | some v =>
      rw [hv] at hr
      have hveq : v = xinst := hps (eid, oueid) (List.mem_cons_self ..) v hv
      have heff : u64sub xinst v = 0 := by rw [hveq]; exact u64sub_self xinst
      simp only [heff] at hr
      exact ih _ _ (by rw [htov]; exact u64add_zero_zero) 
        (fun q hq => hps q (List.mem_cons_of_mem _ hq)) r hr


theorem cl4_prof_sweep_step_start (names : List (String × Nat)) (n : Nat)
    (st : OverSt) (x : CL4ProfEventInst) (h : x.type = .START) :
    cl4_prof_sweep_step names n st x =
      some ⟨tinsert x.id ((tlookup x.event_name names).getD 0) st.occ,
            cl4_prof_rec_pairs x.id x.instant st.occ st.ovl, st.mat, st.tov⟩ := by
  unfold cl4_prof_sweep_step
  rw [h]

theorem cl4_prof_sweep_step_end (names : List (String × Nat)) (n : Nat)
    (st : OverSt) (x : CL4ProfEventInst) (h : x.type = .END) :
    cl4_prof_sweep_step names n st x =
      match cl4_prof_end_accum x.id x.instant
          ((tlookup x.event_name names).getD 0) n st.ovl
          (terase x.id st.occ) st.mat st.tov with
      | none => none
      | some r => some ⟨terase x.id st.occ, st.ovl, r.1, r.2⟩ := by
  unfold cl4_prof_sweep_step
  rw [h]

theorem cl4_prof_sweep_cons {names : List (String × Nat)} {n : Nat}
    {σ : OverSt} {x : CL4ProfEventInst} {rest : List CL4ProfEventInst} :
    cl4_prof_sweep names n σ (x :: rest) =
      match cl4_prof_sweep_step names n σ x with
      | none => none
      | some st' => cl4_prof_sweep names n st' rest := rfl

theorem cl4_prof_sweep_cons_some {names : List (String × Nat)} {n : Nat}
    {σ σ₁ : OverSt} {x : CL4ProfEventInst} {rest : List CL4ProfEventInst}
    (h : cl4_prof_sweep_step names n σ x = some σ₁) :
    cl4_prof_sweep names n σ (x :: rest) = cl4_prof_sweep names n σ₁ rest := by
  rw [cl4_prof_sweep_cons, h]

theorem cl4_prof_sweep_cons_none {names : List (String × Nat)} {n : Nat}
    {σ : OverSt} {x : CL4ProfEventInst} {rest : List CL4ProfEventInst}
    (h : cl4_prof_sweep_step names n σ x = none) :
    cl4_prof_sweep names n σ (x :: rest) = none := by
  rw [cl4_prof_sweep_cons, h]

theorem sweep_tov_zero (stf enf : Nat → Nat) (hse : ∀ i, stf i ≤ enf i)
    (names : List (String × Nat)) (n : Nat) :
    ∀ (R : List CL4ProfEventInst) (σ : OverSt),
      List.Pairwise (fun a b => b.instant ≤ a.instant) R →
      (∀ x ∈ R, typedInst stf enf x) →
      OccInv stf R σ.occ → OvlInv stf R σ.ovl → σ.tov = 0 →
      ∀ σ', cl4_prof_sweep names n σ R = some σ' → σ'.tov = 0 := by
  intro R
  induction R with
  | nil =>
    intro σ _ _ _ _ htov σ' h
    unfold cl4_prof_sweep at h
    cases h
    exact htov
  | cons x R' ih =>
    intro σ hpw hty hocc hovl htov σ' hsw
    have hpw' : List.Pairwise (fun a b => b.instant ≤ a.instant) R' :=
      (List.pairwise_cons.mp hpw).2
    have hhead : ∀ y ∈ R', y.instant ≤ x.instant :=
      (List.pairwise_cons.mp hpw).1
    have hty' : ∀ y ∈ R', typedInst stf enf y :=
      fun y hy => hty y (List.mem_cons_of_mem _ hy)
    cases hxty : x.type with
    | START =>
      have hxinst : x.instant = stf x.id :=
        (hty x (List.mem_cons_self ..)).1 hxty
      have hsw' := (cl4_prof_sweep_cons_some
        (cl4_prof_sweep_step_start names n σ x hxty)).symm.trans hsw
      refine ih ⟨tinsert x.id ((tlookup x.event_name names).getD 0) σ.occ,
        cl4_prof_rec_pairs x.id x.instant σ.occ σ.ovl, σ.mat, σ.tov⟩
        hpw' hty' ?_ ?_ htov σ' hsw'
      · -- OccInv for the updated occurring table
        intro p hp y hy
        rcases mem_tinsert hp with hp' | hp'
        · rw [hp', ← hxinst]
          exact hhead y hy
        · exact hocc p hp' y (List.mem_cons_of_mem _ hy)
      · -- OvlInv for the updated overlaps table
        intro e he
        rcases mem_rec_pairs he with he' | he'
        · obtain ⟨c, d, hk, hv, hcd, hbound⟩ := hovl e he'
          exact ⟨c, d, hk, hv, hcd,
            fun y hy => hbound y (List.mem_cons_of_mem _ hy)⟩
        · obtain ⟨p, hp, rfl⟩ := he'
          refine ⟨x.id, p.1, ?_, by simpa using hxinst, ?_, ?_⟩
          · by_cases hle : x.id ≤ p.1
            · exact Or.inl (by
                rw [if_pos hle, if_neg (by omega : ¬ x.id > p.1)])
            · exact Or.inr (by
                rw [if_neg hle, if_pos (by omega : x.id > p.1)])
          · rw [← hxinst]
            exact hocc p hp x (List.mem_cons_self ..)
          · intro y hy
            rw [← hxinst]
            exact hhead y hy
    | END =>
      have hxinst : x.instant = enf x.id :=
        (hty x (List.mem_cons_self ..)).2 hxty
      have hstep := cl4_prof_sweep_step_end names n σ x hxty
      cases hacc : cl4_prof_end_accum x.id x.instant
          ((tlookup x.event_name names).getD 0) n σ.ovl
          (terase x.id σ.occ) σ.mat σ.tov with
      | none =>
        rw [hacc] at hstep
        rw [cl4_prof_sweep_cons_none hstep] at hsw
        exact absurd hsw (by simp)
      | some r =>
        rw [hacc] at hstep
        have hr2 : r.2 = 0 := by
          refine end_accum_tov _ _ _ _ _ _ _ _ htov ?_ r hacc
          intro p hp v hv
          obtain ⟨c, d, hk, hveq, hcd, hbound⟩ := hovl _ (tlookup_mem hv)
          have hxc : x.instant ≤ stf c := hbound x (List.mem_cons_self ..)
          -- the pair key forces `c = x.id` or `c = p.1 ∧ d = x.id`
          have hcases : c = x.id ∨ (c = p.1 ∧ d = x.id) := by
            by_cases hle : x.id ≤ p.1
            · rw [if_pos hle, if_neg (by omega : ¬ x.id > p.1)] at hk
              rcases hk with hk | hk
              · exact Or.inl (Prod.ext_iff.mp hk).1.symm
              · exact Or.inr ⟨(Prod.ext_iff.mp hk).2.symm,
                  (Prod.ext_iff.mp hk).1.symm⟩
            · rw [if_neg hle, if_pos (by omega : x.id > p.1)] at hk
              rcases hk with hk | hk
              · exact Or.inr ⟨(Prod.ext_iff.mp hk).1.symm,
                  (Prod.ext_iff.mp hk).2.symm⟩
              · exact Or.inl (Prod.ext_iff.mp hk).2.symm
          rcases hcases with hc | ⟨hc, hd⟩
          · -- v is this END's own start instant: forced equal to `x.instant`
            subst hc
            have h1 : stf x.id ≤ x.instant := hxinst ▸ hse x.id
            exact hveq.trans (Nat.le_antisymm h1 hxc)
          · -- v is the partner's start instant, sandwiched to `x.instant`
            subst hc; subst hd
            have h2 : stf x.id ≤ x.instant := hxinst ▸ hse x.id
            exact hveq.trans (Nat.le_antisymm (le_trans hcd h2) hxc)
        have hsw' := (cl4_prof_sweep_cons_some hstep).symm.trans hsw
        refine ih ⟨terase x.id σ.occ, σ.ovl, r.1, r.2⟩ hpw' hty' ?_ ?_ hr2 σ' hsw'
        · intro p hp y hy
          exact hocc p (terase_subset _ hp) y (List.mem_cons_of_mem _ hy)
        · intro e he
          obtain ⟨c, d, hk, hv, hcd, hbound⟩ := hovl e he
          exact ⟨c, d, hk, hv, hcd,
            fun y hy => hbound y (List.mem_cons_of_mem _ hy)⟩

/-- Claim C5: after a successful run of the overlap stage,
`total_events_eff_time + total_overlap = total_events_time` and
`total_overlap ≤ total_events_time` (the `cl_ulong` subtraction at line 722
does not underflow).  The hypotheses say that the instant list is made of
START instants carrying `stf id` and END instants carrying `enf id` with
`stf id ≤ enf id` — exactly the shape ingest produces from device events
whose `t_start ≤ t_end` — and that the `cl_ulong` field
`total_events_time` is in range.  The proof goes through `sweep_tov_zero`:
on the descending-sorted instant list every successful sweep accumulates a
total overlap of exactly `0`. -/
theorem c5_eff_time_plus_overlap (prof : CL4Prof) (stf enf : Nat → Nat)
    (hty : ∀ x ∈ prof.event_instants, typedInst stf enf x)
    (hse : ∀ i, stf i ≤ enf i)
    (htot : prof.total_events_time < U64)
    (prof' : CL4Prof) (ov : Nat)
    (hcalc : cl4_prof_calc_overmat prof = some prof')
    (hov : cl4_prof_total_overlap prof = some ov) :
    prof'.total_events_eff_time + ov = prof.total_events_time ∧
    ov ≤ prof.total_events_time := by
  unfold cl4_prof_calc_overmat at hcalc
  unfold cl4_prof_total_overlap at hov
  cases hsw : cl4_prof_run_sweep prof with
  | none =>
    rw [hsw] at hov
    exact absurd hov (by simp)
  | some st =>
    rw [hsw] at hcalc hov
    have htov : st.tov = 0 := by
      refine sweep_tov_zero stf enf hse (prof.event_names.getD [])
        (prof.event_names.getD []).length
        (List.insertionSort leInstant prof.event_instants)
        ⟨[], [], List.replicate
          ((prof.event_names.getD []).length *
            (prof.event_names.getD []).length) 0, 0⟩
        ?_ ?_ ?_ ?_ rfl st hsw
      · exact (List.sorted_insertionSort leInstant prof.event_instants).imp
          (fun {a b} h => (leInstant_iff a b).mp h)
      · intro x hx
        exact hty x ((List.mem_insertionSort leInstant).mp hx)
      · intro p hp
        exact absurd hp (List.not_mem_nil p)
      · intro e he
        exact absurd he (List.not_mem_nil e)
    have hoveq : ov = st.tov := by
      simp only [Option.map_some', Option.some.injEq] at hov
      exact hov.symm
    have hprof' : prof'.total_events_eff_time =
        u64sub prof.total_events_time st.tov := by
      simp only [Option.map_some', Option.some.injEq] at hcalc
      rw [← hcalc]
    rw [hprof', hoveq, htov, u64sub_zero_of_lt htot]
    exact ⟨rfl, Nat.zero_le _⟩

/-- The concrete witness profile for C5: one event named `"k"` on queue
`"q0"` with `t_start = 100`, `t_end = 200`, `total_events_time = 100` (the
state the aggregate stage would leave). -/
def c5WitnessProf : CL4Prof :=
  { cl4_prof_new with
    event_names := some [("k", 0)],
    event_instants :=
      [⟨"k", "q0", 1, 200, .END⟩, ⟨"k", "q0", 1, 100, .START⟩],
    total_events_time := 100 }

/-- The profile `cl4_prof_calc_overmat` produces from `c5WitnessProf`. -/
def c5WitnessProf' : CL4Prof :=
  { c5WitnessProf with
    event_instants :=
      [⟨"k", "q0", 1, 200, .END⟩, ⟨"k", "q0", 1, 100, .START⟩],
    overmat := some [0],
    total_events_eff_time := 100 }

/-- Witness for C5: the theorem applied at `c5WitnessProf`. -/
theorem c5_eff_time_plus_overlap_witness :
    cl4_prof_calc_overmat c5WitnessProf = some c5WitnessProf' ∧
    cl4_prof_total_overlap c5WitnessProf = some 0 ∧
    c5WitnessProf'.total_events_eff_time + 0 = c5WitnessProf.total_events_time ∧
    0 ≤ c5WitnessProf.total_events_time :=
  have h1 : cl4_prof_calc_overmat c5WitnessProf = some c5WitnessProf' := by decide
  have h2 : cl4_prof_total_overlap c5WitnessProf = some 0 := by decide
  have h3 := c5_eff_time_plus_overlap c5WitnessProf
    (fun _ => 100) (fun _ => 200) (by decide)
    (fun _ => (by decide : (100 : Nat) ≤ 200)) (by decide)
    c5WitnessProf' 0 h1 h2
  ⟨h1, h2, h3.1, h3.2⟩

/-- The S3 input of the spec, built through the public interface: queue
`"q0"` with event `"a"` on `[100, 300]` and event `"b"` on `[200, 400]`. -/
def profS3 : CL4Prof :=
  cl4_prof_add_queue cl4_prof_new "q0"
    [⟨"a", some 10, some 20, some 100, some 300⟩,
     ⟨"b", some 30, some 40, some 200, some 400⟩]

/-- Claim C1 (code_bug evidence): on the S3 input (`"a"` interned with
name-id 0, `"b"` with name-id 1, true pairwise overlap 100), a successful
`cl4_prof_calc` leaves an all-zero 2×2 overlap matrix — the claimed value
`overlap_matrix[0, 1] = 100` does not appear — and the instant list the
sweep processed is in *descending* instant order `[400, 300, 200, 100]`,
not the ascending order the claim states.  The cause is the reversed sign
of `CL4_PROF_CMP`. -/
theorem c1_overmat_s3 :
    (cl4_prof_calc profS3).map (fun r =>
      (r.2, r.1.overmat, r.1.event_instants.map (·.instant),
       r.1.total_events_time, r.1.total_events_eff_time)) =
      some (true, some [0, 0, 0, 0], [400, 300, 200, 100], 400, 400) ∧
    some [0, 0, 0, 0] ≠ some [0, 100, 0, 0] := by
  constructor
  · decide
  · decide

/-- The S6 input of the spec, as a profile state: `start_time = 1000`, one
event `"k"` on `"q0"` with `t_start = 1100`, `t_end = 1200`. -/
def profS6 : CL4Prof :=
  { cl4_prof_new with
    start_time := 1000,
    events := [⟨"k", "q0", 1000, 1050, 1100, 1200⟩] }

/-- Claim C3 (code_bug evidence): with the default export options
(`zero_start = true`), `cl4_prof_export_info` emits the *absolute* device
timestamps `1100` and `1200` — `start_time` is never subtracted and the
`zero_start` option is never read by the function — instead of the claimed
`"q0\t100\t200\tk\n"`. -/
theorem c3_export_s6 :
    cl4_prof_export_info profS6 default_export_options =
      "q0\t1100\t1200\tk\n" ∧
    "q0\t1100\t1200\tk\n" ≠ "q0\t100\t200\tk\n" := by
  constructor
  · decide
  · decide

/-- Two events with `t_start` 100 and 200, for C4. -/
def profC4 : CL4Prof :=
  { cl4_prof_new with
    events := [⟨"k1", "q0", 0, 0, 100, 150⟩, ⟨"k2", "q0", 0, 0, 200, 250⟩] }

/-- Claim C4 (code_bug evidence): `cl4_prof_export_info` writes one line
per event, but in *descending* `t_start` order — the event starting at 200
is printed before the event starting at 100 — because the `T_START`
comparator is built on the sign-reversed `CL4_PROF_CMP`.  This contradicts
the ascending-order claim and the example in the function's own doc
comment. -/
theorem c4_export_order :
    cl4_prof_export_info profC4 default_export_options =
      "q0\t200\t250\tk2\nq0\t100\t150\tk1\n" ∧
    "q0\t200\t250\tk2\nq0\t100\t150\tk1\n" ≠
      "q0\t100\t150\tk1\nq0\t200\t250\tk2\n" := by
  constructor
  · decide
  · decide

/-- Claim C2, amended: when any of the four profiling-info queries fails,
the error propagates as a fatal ingest error (`true` flag) and the *event
record* list receives no entry — but the commit is partial: `num_events` is
always incremented (and the event name interned) before the first query;
when the failing query is `t_end`, the START instant and the `start_time`
update are already committed; when it is `t_queued` or `t_submit`, both
instants are committed. -/
theorem c2_add_event_partial_commit (prof : CL4Prof) (cq : String)
    (evt : CL4EventSrc)
    (hfail : evt.t_queued = none ∨ evt.t_submit = none ∨
      evt.t_start = none ∨ evt.t_end = none) :
    (cl4_prof_add_event prof cq evt).2 = true ∧
    (cl4_prof_add_event prof cq evt).1.events = prof.events ∧
    (cl4_prof_add_event prof cq evt).1.num_events = prof.num_events + 1 ∧
    (evt.t_start = none →
      (cl4_prof_add_event prof cq evt).1.event_instants = prof.event_instants ∧
      (cl4_prof_add_event prof cq evt).1.start_time = prof.start_time) ∧
    (∀ ts, evt.t_start = some ts → evt.t_end = none →
      (cl4_prof_add_event prof cq evt).1.event_instants =
        ⟨evt.final_name, cq, prof.num_events + 1, ts, .START⟩ ::
          prof.event_instants) ∧
    (∀ ts te, evt.t_start = some ts → evt.t_end = some te →
      (cl4_prof_add_event prof cq evt).1.event_instants =
        ⟨evt.final_name, cq, prof.num_events + 1, te, .END⟩ ::
          ⟨evt.final_name, cq, prof.num_events + 1, ts, .START⟩ ::
          prof.event_instants) := by
  cases hts : evt.t_start <;> cases hte : evt.t_end <;>
    cases htq : evt.t_queued <;> cases htsub : evt.t_submit <;>
    simp_all [cl4_prof_add_event]

/-- Witness for the amended C2 theorem, at a concrete event whose `t_end`
query fails. -/
theorem c2_add_event_partial_commit_witness :
    ((⟨"k", some 5, some 6, some 7, none⟩ : CL4EventSrc).t_queued = none ∨
     (⟨"k", some 5, some 6, some 7, none⟩ : CL4EventSrc).t_submit = none ∨
     (⟨"k", some 5, some 6, some 7, none⟩ : CL4EventSrc).t_start = none ∨
     (⟨"k", some 5, some 6, some 7, none⟩ : CL4EventSrc).t_end = none) ∧
    (cl4_prof_add_event cl4_prof_new "q"
      ⟨"k", some 5, some 6, some 7, none⟩).2 = true ∧
    (cl4_prof_add_event cl4_prof_new "q"
      ⟨"k", some 5, some 6, some 7, none⟩).1.num_events =
      cl4_prof_new.num_events + 1 :=
  ⟨by decide,
   (c2_add_event_partial_commit cl4_prof_new "q"
     ⟨"k", some 5, some 6, some 7, none⟩ (by decide)).1,
   (c2_add_event_partial_commit cl4_prof_new "q"
     ⟨"k", some 5, some 6, some 7, none⟩ (by decide)).2.2.1⟩

/-- Counterexample to claim C2 as stated: on a fresh profile, an event whose
`t_end` query fails leaves the error set but also a *changed* profile — the
START instant is in the instant list, `num_events` is `1` and `start_time`
was lowered to `7` — so "the profile's instant list, event list, num_events
and start_time are left as they were" is false. -/
theorem c2_counterexample :
    (cl4_prof_add_event cl4_prof_new "q"
      ⟨"k", some 5, some 6, some 7, none⟩).2 = true ∧
    (cl4_prof_add_event cl4_prof_new "q"
      ⟨"k", some 5, some 6, some 7, none⟩).1.num_events = 1 ∧
    cl4_prof_new.num_events = 0 ∧
    (cl4_prof_add_event cl4_prof_new "q"
      ⟨"k", some 5, some 6, some 7, none⟩).1.event_instants =
      [⟨"k", "q", 1, 7, .START⟩] ∧
    cl4_prof_new.event_instants = [] ∧
    (cl4_prof_add_event cl4_prof_new "q"
      ⟨"k", some 5, some 6, some 7, none⟩).1.start_time = 7 ∧
    cl4_prof_new.start_time ≠ 7 := by
  refine ⟨by decide, by decide, by decide, by decide, by decide, by decide, ?_⟩
  decide

/-! ### The aggregate-sum invariant (C6) -/

/-- Sum of `absolute_time` over the aggregate table's entries. -/
def sumAbs (agg : List (String × CL4ProfEventAgg)) : Nat :=
  (agg.map (fun p => p.2.absolute_time)).sum

theorem tmodify_sumAbs {k : String} {a v : CL4ProfEventAgg} :
    ∀ {l : List (String × CL4ProfEventAgg)}, tlookup k l = some a →
      sumAbs (tmodify k v l) + a.absolute_time = sumAbs l + v.absolute_time := by
  intro l
  induction l with
  | nil => simp [tlookup]
  | cons e l ih =>
    unfold tlookup
    by_cases h : e.1 = k
    · rw [if_pos h]
      intro ha
      have : e.2 = a := by injection ha
      subst this
      unfold tmodify
      rw [if_pos h]
      simp only [sumAbs, List.map_cons, List.sum_cons]
      omega
    · rw [if_neg h]
      intro ha
      unfold tmodify
      rw [if_neg h]
      have := ih ha
      simp only [sumAbs, List.map_cons, List.sum_cons] at this ⊢
      omega

/-- The walk adds each pair's duration to exactly one aggregate entry and to
the running total, so the two grow in lock step modulo 2^64; and the total
it returns is either untouched or already reduced modulo 2^64. -/
theorem agg_walk_modeq (agg : List (String × CL4ProfEventAgg)) (total : Nat)
    (l : List CL4ProfEventInst) :
    ∀ r, cl4_prof_agg_walk agg total l = some r →
      (sumAbs r.1 + total) % U64 = (sumAbs agg + r.2) % U64 ∧
      (r.2 = total ∨ r.2 < U64) := by
  induction agg, total, l using cl4_prof_agg_walk.induct with
  | case1 agg total =>
    intro r hr
    unfold cl4_prof_agg_walk at hr
    cases hr
    exact ⟨rfl, Or.inl rfl⟩
  | case2 agg total x =>
    intro r hr
    unfold cl4_prof_agg_walk at hr
    exact absurd hr (by simp)
  | case3 agg total s e rest hl =>
    intro r hr
    unfold cl4_prof_agg_walk at hr
    rw [hl] at hr
    exact absurd hr (by simp)
  | case4 agg total s e rest a hl ih =>
    intro r hr
    unfold cl4_prof_agg_walk at hr
    rw [hl] at hr
    obtain ⟨hm, ht⟩ := ih r hr
    have hmod := tmodify_sumAbs (v :=
      { a with absolute_time :=
          u64add a.absolute_time (u64sub e.instant s.instant) }) hl
    simp only [u64add, u64sub] at hm hmod ⊢
    constructor
    · unfold U64 at hm hmod ⊢
      omega
    · rcases ht with ht | ht
      · right
        rw [ht]
        exact u64add_lt total _
      · exact Or.inr ht

theorem mem_foldl_tinsert {α β γ : Type} [DecidableEq α] (f : γ → α) (g : γ → β) :
    ∀ (l : List γ) (acc : List (α × β)) (z : α × β),
      z ∈ l.foldl (fun a c => tinsert (f c) (g c) a) acc →
      z ∈ acc ∨ ∃ c ∈ l, z = (f c, g c) := by
  intro l
  induction l with
  | nil => intro acc z h; exact Or.inl h
  | cons c l ih =>
    intro acc z h
    rw [List.foldl_cons] at h
    rcases ih _ z h with h' | h'
    · rcases mem_tinsert h' with h'' | h''
      · exact Or.inr ⟨c, List.mem_cons_self .., h''⟩
      · exact Or.inl h''
    · rcases h' with ⟨c', hc', rfl⟩
      exact Or.inr ⟨c', List.mem_cons_of_mem _ hc', rfl⟩

theorem sumAbs_zero :
    ∀ {t : List (String × CL4ProfEventAgg)},
      (∀ p ∈ t, p.2.absolute_time = 0) → sumAbs t = 0 := by
  intro t
  induction t with
  | nil => intro; rfl
  | cons e t ih =>
    intro h
    simp only [sumAbs, List.map_cons, List.sum_cons]
    rw [h e (List.mem_cons_self ..)]
    simpa [sumAbs] using ih (fun p hp => h p (List.mem_cons_of_mem _ hp))

theorem sumAbs_rel_pass (agg : List (String × CL4ProfEventAgg)) (total : Nat) :
    sumAbs (cl4_prof_agg_rel_pass agg total) = sumAbs agg := by
  induction agg with
  | nil => rfl
  | cons e agg ih =>
    simp only [cl4_prof_agg_rel_pass, sumAbs, List.map_cons, List.sum_cons,
      List.map_map] at ih ⊢
    rw [← ih]

/-- `cl4_prof_calc_agg` with its `let`s inlined. -/
theorem cl4_prof_calc_agg_eq (prof : CL4Prof) :
    cl4_prof_calc_agg prof =
      (cl4_prof_agg_walk
          ((prof.event_names.getD []).foldl
            (fun a e => tinsert e.1 ⟨e.1, 0, none⟩ a) (prof.aggregate.getD []))
          prof.total_events_time
          (List.insertionSort leId prof.event_instants)).map (fun r =>
        { prof with
          aggregate := some (cl4_prof_agg_rel_pass r.1 r.2),
          event_instants := List.insertionSort leId prof.event_instants,
          total_events_time := r.2 }) := rfl

/-- Claim C6: after the aggregate stage of a calculate run (which starts
from the freshly created empty aggregate table and a zero
`total_events_time`), the sum of `absolute_time` over all aggregate
entries equals `total_events_time` (as `cl_ulong` values, i.e. modulo
2^64). -/
theorem c6_agg_sum (prof prof' : CL4Prof)
    (h0 : prof.total_events_time = 0)
    (hbase : prof.aggregate = some [])
    (h : cl4_prof_calc_agg prof = some prof') :
    sumAbs (prof'.aggregate.getD []) % U64 = prof'.total_events_time := by
  rw [cl4_prof_calc_agg_eq] at h
  cases hw : cl4_prof_agg_walk
      ((prof.event_names.getD []).foldl
        (fun a e => tinsert e.1 ⟨e.1, 0, none⟩ a) (prof.aggregate.getD []))
      prof.total_events_time
      (List.insertionSort leId prof.event_instants) with
  | none =>
    rw [hw] at h
    exact absurd h (by simp)
  | some r =>
    rw [hw] at h
    simp only [Option.map_some', Option.some.injEq] at h
    obtain ⟨hm, ht⟩ := agg_walk_modeq _ _ _ r hw
    have hz : sumAbs ((prof.event_names.getD []).foldl
        (fun a e => tinsert e.1 ⟨e.1, 0, none⟩ a) (prof.aggregate.getD [])) = 0 := by
      refine sumAbs_zero ?_
      intro p hp
      rcases mem_foldl_tinsert (fun e : String × Nat => e.1)
        (fun e : String × Nat => (⟨e.1, 0, none⟩ : CL4ProfEventAgg))
        _ _ p hp with h' | h'
      · rw [hbase] at h'
        exact absurd h' (List.not_mem_nil p)
      · rcases h' with ⟨c, _, rfl⟩
        rfl
    have hr2lt : r.2 < U64 := by
      rcases ht with ht | ht
      · rw [ht, h0]; exact U64_pos
      · exact ht
    rw [← h]
    simp only [Option.getD_some]
    rw [sumAbs_rel_pass]
    rw [h0, Nat.add_zero] at hm
    rw [hz, Nat.zero_add] at hm
    rw [hm, Nat.mod_eq_of_lt hr2lt]

/-- Concrete input for the C6/C7 witnesses: the state `cl4_prof_calc` hands
to the aggregate stage for one event `"k"` on `[100, 200]`. -/
def c6WitnessProf : CL4Prof :=
  { cl4_prof_new with
    aggregate := some [],
    event_names := some [("k", 0)],
    event_instants := [⟨"k", "q0", 1, 200, .END⟩, ⟨"k", "q0", 1, 100, .START⟩] }

/-- The profile the aggregate stage produces from `c6WitnessProf`. -/
def c6WitnessProf' : CL4Prof :=
  { c6WitnessProf with
    aggregate := some [("k", ⟨"k", 100, some 1⟩)],
    event_instants := [⟨"k", "q0", 1, 100, .START⟩, ⟨"k", "q0", 1, 200, .END⟩],
    total_events_time := 100 }

/-- Witness for C6: the theorem applied at `c6WitnessProf`. -/
theorem c6_agg_sum_witness :
    cl4_prof_calc_agg c6WitnessProf = some c6WitnessProf' ∧
    sumAbs (c6WitnessProf'.aggregate.getD []) % U64 =
      c6WitnessProf'.total_events_time :=
  have h : cl4_prof_calc_agg c6WitnessProf = some c6WitnessProf' := by decide
  ⟨h, c6_agg_sum c6WitnessProf c6WitnessProf' (by decide) (by decide) h⟩

/-- Claim C7, amended: every aggregate entry's `relative_time` is the
*unguarded* double division `absolute_time / total_events_time`; when
`total_events_time` is `0` the division is `0.0/0.0` and the entry holds
NaN (`none` in the double model), not `0`. -/
theorem c7_relative_time (prof prof' : CL4Prof)
    (h : cl4_prof_calc_agg prof = some prof') :
    ∀ p ∈ prof'.aggregate.getD [],
      p.2.relative_time = dblDiv p.2.absolute_time prof'.total_events_time ∧
      (prof'.total_events_time = 0 → p.2.relative_time = none) := by
  rw [cl4_prof_calc_agg_eq] at h
  cases hw : cl4_prof_agg_walk
      ((prof.event_names.getD []).foldl
        (fun a e => tinsert e.1 ⟨e.1, 0, none⟩ a) (prof.aggregate.getD []))
      prof.total_events_time
      (List.insertionSort leId prof.event_instants) with
  | none =>
    rw [hw] at h
    exact absurd h (by simp)
  | some r =>
    rw [hw] at h
    simp only [Option.map_some', Option.some.injEq] at h
    intro p hp
    rw [← h] at hp
    simp only [Option.getD_some] at hp
    simp only [cl4_prof_agg_rel_pass, List.mem_map] at hp
    obtain ⟨q, _, rfl⟩ := hp
    rw [← h]
    refine ⟨rfl, ?_⟩
    intro h0
    have h0' : r.2 = 0 := h0
    simp [dblDiv, h0']

/-- Witness for the amended C7 theorem, at the single-event input
`c6WitnessProf` (whose total is `100`, so the division is finite). -/
theorem c7_relative_time_witness :
    cl4_prof_calc_agg c6WitnessProf = some c6WitnessProf' ∧
    ("k", (⟨"k", 100, some 1⟩ : CL4ProfEventAgg)) ∈
      c6WitnessProf'.aggregate.getD [] ∧
    (⟨"k", 100, some 1⟩ : CL4ProfEventAgg).relative_time =
      dblDiv 100 c6WitnessProf'.total_events_time :=
  have h : cl4_prof_calc_agg c6WitnessProf = some c6WitnessProf' := by decide
  ⟨h, by decide,
   (c7_relative_time c6WitnessProf c6WitnessProf' h
     ("k", ⟨"k", 100, some 1⟩) (by decide)).1⟩

/-- The C7 counterexample input, built through the public interface: one
zero-duration event `"k"` on `[100, 100]`. -/
def profC7 : CL4Prof :=
  cl4_prof_add_queue cl4_prof_new "q0"
    [⟨"k", some 10, some 20, some 100, some 100⟩]

/-- Counterexample to claim C7 as stated: after a *successful*
`cl4_prof_calc` on a single zero-duration event, `total_events_time = 0`
and the aggregate entry for `"k"` holds `relative_time = none` (NaN from
the unguarded `0.0/0.0`), not the claimed `0`. -/
theorem c7_counterexample :
    (cl4_prof_calc profC7).map (fun r =>
      (r.2, (cl4_prof_get_eventagg r.1 "k").map (·.relative_time),
       r.1.total_events_time)) = some (true, some none, 0) ∧
    some (none : Option ℚ) ≠ some (some (0 : ℚ)) := by
  constructor
  · decide
  · decide

/-! ### Preconditions and one-shot behaviour (C8, C9) -/

theorem cl4_prof_calc_of_isSome {p : CL4Prof} (h : p.aggregate.isSome) :
    cl4_prof_calc p = some (p, false) := by
  cases ha : p.aggregate with
  | none => rw [ha] at h; simp at h
  | some a => simp [cl4_prof_calc, ha]

theorem cl4_prof_add_queue_of_isSome {p : CL4Prof} (h : p.aggregate.isSome)
    (nm : String) (q : List CL4EventSrc) : cl4_prof_add_queue p nm q = p := by
  cases ha : p.aggregate with
  | none => rw [ha] at h; simp at h
  | some a => simp [cl4_prof_add_queue, ha]

theorem add_event_aggregate (p : CL4Prof) (c : String) (e : CL4EventSrc) :
    (cl4_prof_add_event p c e).1.aggregate = p.aggregate := by
  cases hts : e.t_start <;> cases hte : e.t_end <;>
    cases htq : e.t_queued <;> cases htsub : e.t_submit <;>
    simp_all [cl4_prof_add_event]

theorem process_one_queue_aggregate (c : String) :
    ∀ (evts : List CL4EventSrc) (p : CL4Prof),
      (cl4_prof_process_one_queue c p evts).1.aggregate = p.aggregate := by
  intro evts
  induction evts with
  | nil => intro p; rfl
  | cons e evts ih =>
    intro p
    unfold cl4_prof_process_one_queue
    cases hadd : cl4_prof_add_event p c e with
    | mk p1 err =>
      have hagg : p1.aggregate = p.aggregate := by
        have := add_event_aggregate p c e
        rw [hadd] at this
        exact this
      cases err with
      | true => simpa using hagg
      | false => simpa [ih p1] using hagg

theorem process_queue_list_aggregate :
    ∀ (qs : List (String × List CL4EventSrc)) (p : CL4Prof),
      (cl4_prof_process_queue_list p qs).1.aggregate = p.aggregate := by
  intro qs
  induction qs with
  | nil => intro p; rfl
  | cons q qs ih =>
    intro p
    unfold cl4_prof_process_queue_list
    cases hone : cl4_prof_process_one_queue q.1 p q.2 with
    | mk p1 err =>
      have hagg : p1.aggregate = p.aggregate := by
        have := process_one_queue_aggregate q.1 q.2 p
        rw [hone] at this
        exact this
      cases err with
      | true => simpa using hagg
      | false => simpa [ih p1] using hagg

theorem process_queues_aggregate (p : CL4Prof) :
    (cl4_prof_process_queues p).1.aggregate = p.aggregate := by
  unfold cl4_prof_process_queues
  cases hl : cl4_prof_process_queue_list p p.cqueues with
  | mk p1 err =>
    have hagg : p1.aggregate = p.aggregate := by
      have := process_queue_list_aggregate p.cqueues p
      rw [hl] at this
      exact this
    cases err with
    | true => simpa using hagg
    | false => simpa using hagg

/-- `cl4_prof_print_info` with its `let`s inlined. -/
theorem cl4_prof_print_info_eq (prof : CL4Prof) (s : CL4ProfEventAggSort) :
    cl4_prof_print_info prof s =
      ((if (prof.event_names.getD []).length = 0 then some [] else
          prof.overmat.map fun m =>
            (List.range (prof.event_names.getD []).length).flatMap fun i =>
              (List.range (prof.event_names.getD []).length).filterMap fun j =>
                if m.getD (i * (prof.event_names.getD []).length + j) 0 > 0 then
                  some (i, j,
                    m.getD (i * (prof.event_names.getD []).length + j) 0)
                else none).map fun rows =>
        { timer_line := prof.timer.isSome,
          total_line :=
            if prof.total_events_time > 0 then some prof.total_events_time
            else none,
          agg_rows :=
            if (prof.aggregate.getD []).length > 0 then
              List.insertionSort (leAgg s) ((prof.aggregate.getD []).map (·.2))
            else [],
          overlap_rows := rows,
          eff_line :=
            if rows.length > 0 then
              some (prof.total_events_eff_time,
                    prof.total_events_time - prof.total_events_eff_time)
            else none }) := rfl

/-- Claim C8: the three misuses.  (1) Calling `cl4_prof_calc` on a profile
that already has an aggregate table (i.e. after a previous calculate)
returns `CL_FALSE` with the profile untouched; (2) so does
`cl4_prof_add_queue`; (3) `cl4_prof_print_info` before calculate (both
tables still `NULL`, `total_events_time` still `0`) prints no aggregate
rows, no overlap rows, no total line and no effective-time line — it
performs no profiling reporting — and, being a pure reader, leaves the
profile unchanged. -/
theorem c8_misuse_preconditions :
    (∀ p : CL4Prof, p.aggregate.isSome → cl4_prof_calc p = some (p, false)) ∧
    (∀ (p : CL4Prof) (nm : String) (q : List CL4EventSrc),
      p.aggregate.isSome → cl4_prof_add_queue p nm q = p) ∧
    (∀ (p : CL4Prof) (s : CL4ProfEventAggSort),
      p.aggregate = none → p.event_names = none → p.total_events_time = 0 →
      (cl4_prof_print_info p s).map (fun o =>
        (o.agg_rows, o.overlap_rows, o.total_line, o.eff_line)) =
        some ([], [], none, none)) := by
  refine ⟨fun p h => cl4_prof_calc_of_isSome h,
    fun p nm q h => cl4_prof_add_queue_of_isSome h nm q, ?_⟩
  intro p s h1 h2 h3
  rw [cl4_prof_print_info_eq]
  simp [h1, h2, h3]

/-- A profile that has already been calculated (its aggregate table
exists), for the C8 witness. -/
def calcedProf : CL4Prof := { cl4_prof_new with aggregate := some [] }

/-- Witness for C8: the theorem applied at concrete profiles. -/
theorem c8_misuse_preconditions_witness :
    cl4_prof_calc calcedProf = some (calcedProf, false) ∧
    cl4_prof_add_queue calcedProf "q" [] = calcedProf ∧
    (cl4_prof_print_info cl4_prof_new .NAME).map (fun o =>
      (o.agg_rows, o.overlap_rows, o.total_line, o.eff_line)) =
      some ([], [], none, none) :=
  ⟨c8_misuse_preconditions.1 calcedProf (by decide),
   c8_misuse_preconditions.2.1 calcedProf "q" [] (by decide),
   c8_misuse_preconditions.2.2 cl4_prof_new .NAME (by decide) (by decide)
     (by decide)⟩


/-- `cl4_prof_calc` on a not-yet-calculated profile, with the precondition
branch and the `let` inlined. -/
theorem cl4_prof_calc_none {p : CL4Prof} (h : p.aggregate = none) :
    cl4_prof_calc p =
      match cl4_prof_process_queues
          { p with aggregate := some [], event_names := some [] } with
      | (p2, true) => some (p2, false)
      | (p2, false) =>
        match cl4_prof_calc_agg p2 with
        | none => none
        | some p3 => (cl4_prof_calc_overmat p3).map fun p4 => (p4, true) := by
  unfold cl4_prof_calc
  rw [h]

/-- Claim C9: `cl4_prof_calc` is one-shot even when it fails.  Any
`cl4_prof_calc` call entered with `aggregate == NULL` that returns (with
either status) leaves a non-`NULL` aggregate table — the table is created
before ingest and kept on the error path — so every subsequent
`cl4_prof_calc` is rejected with `CL_FALSE` and every subsequent
`cl4_prof_add_queue` is a no-op: a failed calculate cannot be retried. -/
theorem c9_calc_one_shot (p : CL4Prof) (hpre : p.aggregate = none)
    (p' : CL4Prof) (b : Bool) (h : cl4_prof_calc p = some (p', b)) :
    p'.aggregate.isSome ∧
    cl4_prof_calc p' = some (p', false) ∧
    ∀ (nm : String) (q : List CL4EventSrc), cl4_prof_add_queue p' nm q = p' := by
  have hsome : p'.aggregate.isSome := by
    rw [cl4_prof_calc_none hpre] at h
    cases hpq : cl4_prof_process_queues
        { p with aggregate := some [], event_names := some [] } with
    | mk p2 err =>
      rw [hpq] at h
      have hagg2 : p2.aggregate = some [] := by
        have hx := process_queues_aggregate
          { p with aggregate := some [], event_names := some [] }
        rw [hpq] at hx
        exact hx
      cases err with
      | true =>
        have h' : some (p2, false) = some (p', b) := h
        simp only [Option.some.injEq, Prod.mk.injEq] at h'
        rw [← h'.1, hagg2]
        rfl
      | false =>
        have h' : (match cl4_prof_calc_agg p2 with
            | none => none
            | some p3 =>
              (cl4_prof_calc_overmat p3).map fun p4 => (p4, true)) =
            some (p', b) := h
        cases hca : cl4_prof_calc_agg p2 with
        | none =>
          rw [hca] at h'
          exact absurd h' (by simp)
        | some p3 =>
          rw [hca] at h'
          have h'' : (cl4_prof_calc_overmat p3).map (fun p4 => (p4, true)) =
              some (p', b) := h'
          have hagg3 : p3.aggregate.isSome := by
            rw [cl4_prof_calc_agg_eq] at hca
            cases hw : cl4_prof_agg_walk
                ((p2.event_names.getD []).foldl
                  (fun a e => tinsert e.1 ⟨e.1, 0, none⟩ a)
                  (p2.aggregate.getD []))
                p2.total_events_time
                (List.insertionSort leId p2.event_instants) with
            | none => rw [hw] at hca; exact absurd hca (by simp)
            | some r =>
              rw [hw] at hca
              simp only [Option.map_some', Option.some.injEq] at hca
              rw [← hca]
              rfl
          cases hcm : cl4_prof_calc_overmat p3 with
          | none =>
            rw [hcm] at h''
            exact absurd h'' (by simp)
          | some p4 =>
            rw [hcm] at h''
            simp only [Option.map_some', Option.some.injEq,
              Prod.mk.injEq] at h''
            have hagg4 : p4.aggregate = p3.aggregate := by
              unfold cl4_prof_calc_overmat at hcm
              cases hrs : cl4_prof_run_sweep p3 with
              | none => rw [hrs] at hcm; exact absurd hcm (by simp)
              | some st =>
                rw [hrs] at hcm
                simp only [Option.map_some', Option.some.injEq] at hcm
                rw [← hcm]
            rw [← h''.1, hagg4]
            exact hagg3
  exact ⟨hsome, cl4_prof_calc_of_isSome hsome,
    fun nm q => cl4_prof_add_queue_of_isSome hsome nm q⟩

/-- A profile whose single event's `t_end` query fails, so `cl4_prof_calc`
returns an error. -/
def c9FailProf : CL4Prof :=
  cl4_prof_add_queue cl4_prof_new "q0" [⟨"k", some 5, some 6, some 7, none⟩]

/-- The state that failed `cl4_prof_calc` leaves behind: the aggregate
table was created before ingest and survives the error path. -/
def c9FailedProf : CL4Prof :=
  { cl4_prof_new with
    event_names := some [("k", 0)],
    cqueues := [("q0", [⟨"k", some 5, some 6, some 7, none⟩])],
    event_instants := [⟨"k", "q0", 1, 7, .START⟩],
    num_events := 1,
    aggregate := some [],
    start_time := 7 }

/-- Witness for C9: the theorem applied at the concrete failed calculate. -/
theorem c9_calc_one_shot_witness :
    cl4_prof_calc c9FailProf = some (c9FailedProf, false) ∧
    c9FailedProf.aggregate.isSome ∧
    cl4_prof_calc c9FailedProf = some (c9FailedProf, false) ∧
    cl4_prof_add_queue c9FailedProf "q1" [] = c9FailedProf :=
  have h : cl4_prof_calc c9FailProf = some (c9FailedProf, false) := by decide
  have hc := c9_calc_one_shot c9FailProf (by decide) c9FailedProf false h
  ⟨h, hc.1, hc.2.1, hc.2.2 "q1" []⟩

/-! ### The wall-clock timer (C10) -/

/-- Claim C10: `cl4_prof_start` creates the timer; under the implicit
precondition that it ran earlier on the same profile, `cl4_prof_stop` and
`cl4_prof_time_elapsed` find a non-`NULL` timer and succeed; without it
both hand the `NULL` timer straight to `g_timer_stop` /
`g_timer_elapsed` (neither checks the timer, only the profile pointer),
modelled as the `none` outcome. -/
theorem c10_timer_precondition :
    (∀ p : CL4Prof, ((cl4_prof_start p).timer).isSome) ∧
    (∀ p : CL4Prof, p.timer.isSome →
      (cl4_prof_stop p).isSome ∧ (cl4_prof_time_elapsed p).isSome) ∧
    (∀ p : CL4Prof, p.timer = none →
      cl4_prof_stop p = none ∧ cl4_prof_time_elapsed p = none) := by
  refine ⟨fun p => rfl, ?_, ?_⟩
  · intro p h
    cases ht : p.timer with
    | none => rw [ht] at h; simp at h
    | some t => exact ⟨by simp [cl4_prof_stop, ht], by simp [cl4_prof_time_elapsed, ht]⟩
  · intro p h
    exact ⟨by simp [cl4_prof_stop, h], by simp [cl4_prof_time_elapsed, h]⟩

/-- Witness for C10: the theorem applied at concrete profiles. -/
theorem c10_timer_precondition_witness :
    ((cl4_prof_start cl4_prof_new).timer).isSome ∧
    ((cl4_prof_stop (cl4_prof_start cl4_prof_new)).isSome ∧
     (cl4_prof_time_elapsed (cl4_prof_start cl4_prof_new)).isSome) ∧
    (cl4_prof_stop cl4_prof_new = none ∧
     cl4_prof_time_elapsed cl4_prof_new = none) :=
  ⟨c10_timer_precondition.1 cl4_prof_new,
   c10_timer_precondition.2.1 (cl4_prof_start cl4_prof_new) (by decide),
   c10_timer_precondition.2.2 cl4_prof_new (by decide)⟩
